import Mathlib

/-!
Verification development for the FUB Building Energy Management System
(`src/app.py`): a shallow embedding of its synthetic-telemetry generator
(`generate_data`), the daily rollup columns added to the generated frame,
and the Room Detail filtering / hourly resample, together with theorems
settling the specification's claims about them.

Modelling conventions:
* Python's global `random` module is an explicit state `PyState`: an
  infinite stream of draws (each draw of `random.random()` is meant to lie
  in `[0, 1)`, captured by the predicate `validStream`) together with a
  position; `random.uniform(a, b)` is `a + (b - a) * random.random()`.
  NumPy's separately seeded global generator (the code calls
  `np.random.seed(42)` but never draws from NumPy) is a second component.
* Timestamps are minute offsets from 2025-11-01 00:00 (the hardcoded
  `start_date`); 2025-11-01 is a Saturday, Python weekday 5.  The horizon
  2025-11-01 00:00 .. 2025-11-15 23:59 at `1min` frequency is the offset
  range `0 .. 21599`.
* Python floats are idealised as exact rationals; `round(x, d)` is
  round-half-to-even at `d` decimal digits (`pyRound`).
-/

namespace BEMS

/-- State of Python's global `random` module: an infinite stream of
`random.random()` outcomes and the position of the next draw. -/
structure PyState where
  stream : ℕ → ℚ
  pos : ℕ

/-- A draw of `random.random()`: yields the next stream value and advances
the position. -/
def randomRandom (s : PyState) : ℚ × PyState :=
  (s.stream s.pos, ⟨s.stream, s.pos + 1⟩)

/-- A draw of `random.uniform(a, b)`, which Python computes as
`a + (b - a) * random.random()`. -/
def randomUniform (a b : ℚ) (s : PyState) : ℚ × PyState :=
  let r := randomRandom s
  (a + (b - a) * r.1, r.2)

/-- The process-global random state: NumPy's generator (modelled by the seed
it last received, since the program never draws from it) and the `random`
module's state. -/
structure GlobalRng where
  np : ℕ
  py : PyState

/-- Model of `np.random.seed(n)`: resets the NumPy component only.  The
`random` module's state is untouched. -/
def npRandomSeed (n : ℕ) (g : GlobalRng) : GlobalRng :=
  ⟨n, g.py⟩

/-- A well-formed `random` stream: every `random.random()` draw lies in
`[0, 1)`. -/
def validStream (s : PyState) : Prop :=
  ∀ n, 0 ≤ s.stream n ∧ s.stream n < 1

/-- Round-half-to-even to an integer, the rounding Python's `round` uses
(idealised over exact rationals). -/
def roundHalfEven (x : ℚ) : ℤ :=
  if x - ⌊x⌋ < 1/2 then ⌊x⌋
  else if 1/2 < x - ⌊x⌋ then ⌊x⌋ + 1
  else if ⌊x⌋ % 2 = 0 then ⌊x⌋ else ⌊x⌋ + 1

/-- Python's `round(x, d)` on exact rationals. -/
def pyRound (x : ℚ) (d : ℕ) : ℚ :=
  (roundHalfEven (x * 10 ^ d) : ℚ) / 10 ^ d

/-- Words of a character list, split on blanks: models Python's
`str.split()` for the strings this program splits. -/
def splitWords : List Char → List (List Char)
  | [] => [[]]
  | c :: rest =>
    if c = ' ' then [] :: splitWords rest
    else
      match splitWords rest with
      | [] => [[c]]
      | w :: ws => (c :: w) :: ws

/-- Python's `s.split()[1]`: the second blank-separated word. -/
def pySplitSecond (s : String) : String :=
  String.mk ((splitWords s.data).getD 1 [])

/-- Python's `s[a:b]` string slice. -/
def pySlice (s : String) (a b : ℕ) : String :=
  String.mk ((s.data.drop a).take (b - a))

/-- Python's `s.replace(\x7b',' '0', '')`-style zero removal: drops every `'0'`
character (used by the generator's floor column). -/
def pyStripZeros (s : String) : String :=
  String.mk (s.data.filter (fun c => ¬ c = '0'))

/-- Source line 13: `FLOORS = [f"Floor {i}" for i in range(1, 11)]`. -/
def FLOORS : List String :=
  (List.range' 1 10).map (fun i => "Floor " ++ toString i)

/-- Source line 14. -/
def ROOMS_PER_FLOOR : ℕ := 8

/-- Source line 15. -/
def TOTAL_ROOMS : ℕ := FLOORS.length * ROOMS_PER_FLOOR

/-- Python's `f"{room:02d}"` for the room indices used here. -/
def pad2 (n : ℕ) : String :=
  if n < 10 then "0" ++ toString n else toString n

/-- Source lines 18-19: room ids
`f"FUB-{floor.split()[1]}{room:02d}"` over all floors and per-floor rooms. -/
def rooms : List String :=
  FLOORS.flatMap (fun floor =>
    (List.range' 1 ROOMS_PER_FLOOR).map
      (fun room => "FUB-" ++ pySplitSecond floor ++ pad2 room))

/-- The room-id naming convention of the fixed layout: building code,
floor number, two-digit in-floor room index (spec section 6). -/
def roomId (floor idx : ℕ) : String :=
  "FUB-" ++ toString floor ++ pad2 idx

/-- Python's `ts.weekday()` (Monday = 0) for a timestamp given as minutes
since 2025-11-01 00:00: 2025-11-01 is a Saturday, so the start minute has
weekday 5. -/
def pyWeekday (ts : ℕ) : ℕ := (5 + ts / 1440) % 7

/-- Python's `ts.hour`. -/
def pyHour (ts : ℕ) : ℕ := (ts / 60) % 24

/-- Python's `ts.date()`, as days since 2025-11-01. -/
def pyDate (ts : ℕ) : ℕ := ts / 1440

/-- Source line 26: `pd.date_range(datetime(2025,11,1),
datetime(2025,11,15,23,59), freq='1min')` — 15 days of minutes. -/
def dates : List ℕ := List.range 21600

/-- One generated record (the dict appended at source lines 51-61). -/
structure Sample where
  timestamp : ℕ
  room : String
  floor : String
  voltage : ℚ
  current : ℚ
  power : ℚ
  energy_kwh : ℚ
  status : String
  scheduled : Bool

/-- Source line 54: `room[4:7].replace('0', '')`, the generator's floor
column. -/
def floorField (room : String) : String :=
  pyStripZeros (pySlice room 4 7)

/-- Source lines 34-44: the per-minute power policy.  Weekend days draw
`random.random()` and are off when it is `< 0.9`, else draw a partial load;
weekdays are off outside hours `[8, 18)`, at reduced load during lunch
`[12, 14)`, else near-nominal load. -/
def usageAt (base_power : ℚ) (ts : ℕ) (s : PyState) : ℚ × PyState :=
  if 5 ≤ pyWeekday ts then
    let r := randomRandom s
    if r.1 < 9/10 then (0, r.2)
    else
      let u := randomUniform (1/10) (4/10) r.2
      (base_power * u.1, u.2)
  else
    let hour := pyHour ts
    if hour < 8 ∨ 18 ≤ hour then (0, s)
    else if 12 ≤ hour ∧ hour < 14 then
      let u := randomUniform (3/10) (6/10) s
      (base_power * u.1, u.2)
    else
      let u := randomUniform (8/10) (11/10) s
      (base_power * u.1, u.2)

/-- Source lines 46-61: one record — usage from the policy, then a voltage
draw, the guarded current, the per-minute energy, rounded stored fields and
the ON/OFF status from the unrounded power. -/
def genRow (room : String) (base_power : ℚ) (ts : ℕ) (s : PyState) :
    Sample × PyState :=
  let us := usageAt base_power ts s
  let usage := us.1
  let vs := randomUniform 220 230 us.2
  let voltage := vs.1
  let current := if 0 < usage then usage / voltage else 0
  let power := usage
  let energy_kwh := power / 1000 / 60
  ({ timestamp := ts
     room := room
     floor := floorField room
     voltage := pyRound voltage 2
     current := pyRound current 3
     power := pyRound power 1
     energy_kwh := energy_kwh
     status := if 100 < power then "ON" else "OFF"
     scheduled := true }, vs.2)

/-- The inner loop of `generate_data` (source lines 33-61): one record per
timestamp for a fixed room and `base_power`, threading the random state. -/
def genRoomRows (room : String) (base_power : ℚ) :
    List ℕ → PyState → List Sample × PyState
  | [], s => ([], s)
  | ts :: rest, s =>
    let rw := genRow room base_power ts s
    let more := genRoomRows room base_power rest rw.2
    (rw.1 :: more.1, more.2)

/-- The outer loop of `generate_data` (source lines 31-61): per room, one
`base_power = random.uniform(800, 2500)` draw, then the full horizon. -/
def genRooms : List String → PyState → List Sample × PyState
  | [], s => ([], s)
  | room :: rest, s =>
    let bp := randomUniform 800 2500 s
    let rows := genRoomRows room bp.1 dates bp.2
    let more := genRooms rest rows.2
    (rows.1 ++ more.1, more.2)

/-- Source lines 22-63: `generate_data()`.  It takes no horizon or seed
parameter; it calls `np.random.seed(42)` (touching only the NumPy
component) and then draws everything from the `random` module, whose
ambient state is the function's only real input.  Returns the table and
the advanced global state. -/
def generate_data (g : GlobalRng) : List Sample × GlobalRng :=
  let g1 := npRandomSeed 42 g
  let res := genRooms rooms g1.py
  (res.1, ⟨g1.np, res.2⟩)

/-- One row of the frame after source lines 65-69 add the derived
columns. -/
structure DfRow where
  sample : Sample
  date : ℕ
  energy_daily : ℚ
  cost_daily : ℚ
  co2_g : ℚ

/-- Sum of `energy_kwh` over the rows of one `(room, date)` group — what
`df.groupby(['room', 'date'])['energy_kwh'].transform('sum')` broadcasts
to each member row. -/
def groupEnergySum (df : List Sample) (room : String) (date : ℕ) : ℚ :=
  ((df.filter (fun r => r.room == room && pyDate r.timestamp == date)).map
    (fun r => r.energy_kwh)).sum

/-- Source lines 66-69: the derived columns —
`date` from the timestamp, `energy_daily` the broadcast group sum,
`cost_daily = energy_daily * 8.5`, `co2_g = energy_kwh * 720`. -/
def withRollups (df : List Sample) : List DfRow :=
  df.map (fun r =>
    { sample := r
      date := pyDate r.timestamp
      energy_daily := groupEnergySum df r.room (pyDate r.timestamp)
      cost_daily := groupEnergySum df r.room (pyDate r.timestamp) * (85/10)
      co2_g := r.energy_kwh * 720 })

/-- Source lines 137-149: the Room Detail frame — rows of one room whose
date lies in the inclusive selected range. -/
def roomDetailFiltered (df : List DfRow) (room : String)
    (start_date end_date : ℕ) : List DfRow :=
  (df.filter (fun r => r.sample.room == room)).filter
    (fun r =>
      decide (start_date ≤ pyDate r.sample.timestamp) &&
      decide (pyDate r.sample.timestamp ≤ end_date))

/-- Source line 152: `filtered.sort_values('timestamp').iloc[-1]`.
`iloc[-1]` on an empty frame raises `IndexError`; the partial lookup is
modelled by `Option`, `none` standing for the raised error. -/
def roomDetailLatest (df : List DfRow) (room : String)
    (start_date end_date : ℕ) : Option DfRow :=
  ((roomDetailFiltered df room start_date end_date).mergeSort
    (fun a b => decide (a.sample.timestamp ≤ b.sample.timestamp))).getLast?

/-- Source lines 162-163: hourly resample of the filtered rows — group by
the hour bucket of the timestamp and sum `energy_kwh` per bucket. -/
def resampleHourlyEnergy (filtered : List DfRow) : List (ℕ × ℚ) :=
  ((filtered.map (fun r => r.sample.timestamp / 60)).dedup).map
    (fun h => (h,
      ((filtered.filter (fun r => r.sample.timestamp / 60 == h)).map
        (fun r => r.sample.energy_kwh)).sum))

/-- Closed form of the policy when every `random.random()` draw returns the
same value `c` (used to evaluate concrete runs). -/
def usageFor (base_power c : ℚ) (ts : ℕ) : ℚ :=
  if 5 ≤ pyWeekday ts then
    (if c < 9/10 then 0 else base_power * (1/10 + (4/10 - 1/10) * c))
  else if pyHour ts < 8 ∨ 18 ≤ pyHour ts then 0
  else if 12 ≤ pyHour ts ∧ pyHour ts < 14 then
    base_power * (3/10 + (6/10 - 3/10) * c)
  else
    base_power * (8/10 + (11/10 - 8/10) * c)

/-- Closed form of one record under a constant stream `c`. -/
def rowFor (room : String) (base_power c : ℚ) (ts : ℕ) : Sample :=
  { timestamp := ts
    room := room
    floor := floorField room
    voltage := pyRound (220 + (230 - 220) * c) 2
    current := pyRound
      (if 0 < usageFor base_power c ts
        then usageFor base_power c ts / (220 + (230 - 220) * c) else 0) 3
    power := pyRound (usageFor base_power c ts) 1
    energy_kwh := usageFor base_power c ts / 1000 / 60
    status := if 100 < usageFor base_power c ts then "ON" else "OFF"
    scheduled := true }

/-- A global state whose `random` stream constantly returns `c`. -/
def gConst (c : ℚ) : GlobalRng :=
  ⟨0, ⟨fun _ => c, 0⟩⟩

/-! ### Basic lemmas: stream preservation and rounding bounds -/

theorem validStream_of_stream_eq {s t : PyState} (h : t.stream = s.stream)
    (hs : validStream s) : validStream t := by
  intro n
  rw [h]
  exact hs n

theorem genRoomRows_nil (room : String) (base_power : ℚ) (s : PyState) :
    genRoomRows room base_power [] s = ([], s) := rfl

theorem genRoomRows_cons (room : String) (base_power : ℚ) (ts : ℕ)
    (rest : List ℕ) (s : PyState) :
    genRoomRows room base_power (ts :: rest) s =
      ((genRow room base_power ts s).1 ::
          (genRoomRows room base_power rest (genRow room base_power ts s).2).1,
        (genRoomRows room base_power rest (genRow room base_power ts s).2).2) :=
  rfl

theorem genRooms_nil (s : PyState) : genRooms [] s = ([], s) := rfl

theorem genRooms_cons (room : String) (rest : List String) (s : PyState) :
    genRooms (room :: rest) s =
      ((genRoomRows room (randomUniform 800 2500 s).1 dates
            (randomUniform 800 2500 s).2).1 ++
          (genRooms rest
            (genRoomRows room (randomUniform 800 2500 s).1 dates
              (randomUniform 800 2500 s).2).2).1,
        (genRooms rest
          (genRoomRows room (randomUniform 800 2500 s).1 dates
            (randomUniform 800 2500 s).2).2).2) :=
  rfl

theorem usageAt_stream (base_power : ℚ) (ts : ℕ) (s : PyState) :
    (usageAt base_power ts s).2.stream = s.stream := by
  simp only [usageAt, randomUniform, randomRandom]
  split_ifs <;> rfl

theorem genRow_stream (room : String) (base_power : ℚ) (ts : ℕ)
    (s : PyState) : (genRow room base_power ts s).2.stream = s.stream := by
  unfold genRow randomUniform randomRandom
  dsimp only
  rw [usageAt_stream]

theorem genRoomRows_stream (room : String) (base_power : ℚ)
    (tss : List ℕ) (s : PyState) :
    (genRoomRows room base_power tss s).2.stream = s.stream := by
  induction tss generalizing s with
  | nil => rfl
  | cons ts rest ih =>
    rw [genRoomRows_cons]
    dsimp only
    rw [ih, genRow_stream]

theorem genRooms_stream (rs : List String) (s : PyState) :
    (genRooms rs s).2.stream = s.stream := by
  induction rs generalizing s with
  | nil => rfl
  | cons room rest ih =>
    rw [genRooms_cons]
    dsimp only
    rw [ih, genRoomRows_stream]
    rfl

theorem roundHalfEven_le (x : ℚ) : (roundHalfEven x : ℚ) ≤ x + 1/2 := by
  have h1 := Int.floor_le x
  have h2 := Int.lt_floor_add_one x
  unfold roundHalfEven
  split
  · linarith
  · split
    · push_cast
      linarith
    · split <;> first | linarith | (push_cast; linarith)

theorem le_roundHalfEven (x : ℚ) : x - 1/2 ≤ (roundHalfEven x : ℚ) := by
  have h1 := Int.floor_le x
  have h2 := Int.lt_floor_add_one x
  unfold roundHalfEven
  split
  · linarith
  · split
    · push_cast
      linarith
    · split <;> first | linarith | (push_cast; linarith)

theorem abs_pyRound_sub_le (x : ℚ) (d : ℕ) :
    |pyRound x d - x| ≤ 1 / (2 * 10 ^ d) := by
  have hpow : (0:ℚ) < 10 ^ d := by positivity
  have h1 := roundHalfEven_le (x * 10 ^ d)
  have h2 := le_roundHalfEven (x * 10 ^ d)
  have heq : pyRound x d - x
      = ((roundHalfEven (x * 10 ^ d) : ℚ) - x * 10 ^ d) / 10 ^ d := by
    unfold pyRound
    field_simp
    ring
  rw [heq, abs_div, abs_of_pos hpow,
    show (1:ℚ)/(2 * 10 ^ d) = (1/2)/(10 ^ d) from (div_div 1 2 (10 ^ d)).symm,
    div_le_div_iff_of_pos_right hpow]
  exact abs_le.mpr ⟨by linarith, by linarith⟩

theorem roundHalfEven_of_lt_half {x : ℚ} {n : ℤ} (h1 : (n:ℚ) ≤ x)
    (h2 : x < n + 1/2) : roundHalfEven x = n := by
  have hf : ⌊x⌋ = n := by
    rw [Int.floor_eq_iff]
    exact ⟨h1, by linarith⟩
  unfold roundHalfEven
  rw [hf]
  rw [if_pos (by linarith)]

theorem roundHalfEven_of_gt_half {x : ℚ} {n : ℤ} (h1 : (n:ℚ) + 1/2 < x)
    (h2 : x < n + 1) : roundHalfEven x = n + 1 := by
  have hn : (n:ℚ) ≤ x := by linarith
  have hf : ⌊x⌋ = n := by
    rw [Int.floor_eq_iff]
    exact ⟨hn, by linarith⟩
  unfold roundHalfEven
  rw [hf]
  rw [if_neg (by linarith), if_pos (by linarith)]

theorem pyRound_zero (d : ℕ) : pyRound 0 d = 0 := by
  unfold pyRound
  rw [zero_mul, roundHalfEven_of_lt_half (n := 0) (by norm_num) (by norm_num)]
  norm_num

/-! ### Where the rows of the generated table come from -/

theorem mem_genRoomRows {row : Sample} {room : String} {base_power : ℚ}
    {tss : List ℕ} {s : PyState}
    (h : row ∈ (genRoomRows room base_power tss s).1) :
    ∃ ts s', ts ∈ tss ∧ s'.stream = s.stream ∧
      row = (genRow room base_power ts s').1 := by
  induction tss generalizing s with
  | nil => simp [genRoomRows_nil] at h
  | cons ts rest ih =>
    rw [genRoomRows_cons] at h
    dsimp only at h
    rcases List.mem_cons.mp h with h1 | h2
    · exact ⟨ts, s, List.mem_cons_self ts rest, rfl, h1⟩
    · obtain ⟨ts', s', hm, hs, he⟩ := ih h2
      exact ⟨ts', s', List.mem_cons_of_mem _ hm,
        by rw [hs, genRow_stream], he⟩

theorem mem_genRooms {row : Sample} {rs : List String} {s : PyState}
    (h : row ∈ (genRooms rs s).1) :
    ∃ room base_power ts s', room ∈ rs ∧ ts ∈ dates ∧
      s'.stream = s.stream ∧
      (validStream s → 800 ≤ base_power ∧ base_power < 2500) ∧
      row = (genRow room base_power ts s').1 := by
  induction rs generalizing s with
  | nil => simp [genRooms_nil] at h
  | cons room rest ih =>
    rw [genRooms_cons] at h
    dsimp only at h
    rcases List.mem_append.mp h with h1 | h2
    · obtain ⟨ts, s', hm, hs, he⟩ := mem_genRoomRows h1
      refine ⟨room, (randomUniform 800 2500 s).1, ts, s',
        List.mem_cons_self room rest, hm, hs, ?_, he⟩
      intro hv
      have hr := hv s.pos
      simp only [randomUniform, randomRandom]
      constructor
      · nlinarith [hr.1]
      · nlinarith [hr.2]
    · obtain ⟨room', bp, ts, s', hm, hd, hs, hb, he⟩ := ih h2
      refine ⟨room', bp, ts, s', List.mem_cons_of_mem _ hm, hd, ?_, ?_, he⟩
      · rw [hs, genRoomRows_stream]
        rfl
      · intro hv
        apply hb
        apply validStream_of_stream_eq _ hv
        rw [genRoomRows_stream]
        rfl

theorem mem_generate_data {row : Sample} {g : GlobalRng}
    (h : row ∈ (generate_data g).1) :
    ∃ room base_power ts s', room ∈ rooms ∧ ts ∈ dates ∧
      s'.stream = g.py.stream ∧
      (validStream g.py → 800 ≤ base_power ∧ base_power < 2500) ∧
      row = (genRow room base_power ts s').1 :=
  mem_genRooms h

/-- Full characterisation of one generated record under any well-formed
random state: there are an unrounded power `p` (determined by the schedule
policy) and an unrounded voltage `v ∈ [220, 230)` from which every stored
field derives exactly as source lines 46-61 compute it. -/
theorem genRow_spec (room : String) (base_power : ℚ) (ts : ℕ)
    (s : PyState) (hs : validStream s) :
    ∃ p v, 220 ≤ v ∧ v < 230 ∧
      (genRow room base_power ts s).1 =
        { timestamp := ts
          room := room
          floor := floorField room
          voltage := pyRound v 2
          current := pyRound (if 0 < p then p / v else 0) 3
          power := pyRound p 1
          energy_kwh := p / 1000 / 60
          status := if 100 < p then "ON" else "OFF"
          scheduled := true } ∧
      ((5 ≤ pyWeekday ts ∧
          (p = 0 ∨ ∃ u, 1/10 ≤ u ∧ u < 4/10 ∧ p = base_power * u)) ∨
        (pyWeekday ts < 5 ∧ (pyHour ts < 8 ∨ 18 ≤ pyHour ts) ∧ p = 0) ∨
        (pyWeekday ts < 5 ∧ 12 ≤ pyHour ts ∧ pyHour ts < 14 ∧
          ∃ u, 3/10 ≤ u ∧ u < 6/10 ∧ p = base_power * u) ∨
        (pyWeekday ts < 5 ∧ 8 ≤ pyHour ts ∧ pyHour ts < 18 ∧
          ¬(12 ≤ pyHour ts ∧ pyHour ts < 14) ∧
          ∃ u, 8/10 ≤ u ∧ u < 11/10 ∧ p = base_power * u)) := by
  have hstream := usageAt_stream base_power ts s
  refine ⟨(usageAt base_power ts s).1,
    (randomUniform 220 230 (usageAt base_power ts s).2).1, ?_, ?_, rfl, ?_⟩
  · have hr := hs ((usageAt base_power ts s).2.pos)
    rw [← hstream] at hr
    simp only [randomUniform, randomRandom]
    nlinarith [hr.1]
  · have hr := hs ((usageAt base_power ts s).2.pos)
    rw [← hstream] at hr
    simp only [randomUniform, randomRandom]
    nlinarith [hr.2]
  · by_cases h1 : 5 ≤ pyWeekday ts
    · left
      refine ⟨h1, ?_⟩
      by_cases h2 : s.stream s.pos < 9/10
      · left
        simp only [usageAt, if_pos h1, randomRandom, if_pos h2]
      · right
        have hr := hs (s.pos + 1)
        refine ⟨1/10 + (4/10 - 1/10) * s.stream (s.pos + 1), ?_, ?_, ?_⟩
        · nlinarith [hr.1]
        · nlinarith [hr.2]
        · simp only [usageAt, if_pos h1, randomRandom, if_neg h2,
            randomUniform]
    · right
      have h1' : pyWeekday ts < 5 := Nat.lt_of_not_le h1
      by_cases h2 : pyHour ts < 8 ∨ 18 ≤ pyHour ts
      · left
        refine ⟨h1', h2, ?_⟩
        simp only [usageAt, if_neg h1, if_pos h2]
      · right
        have h8 : 8 ≤ pyHour ts := by omega
        have h18 : pyHour ts < 18 := by omega
        by_cases h3 : 12 ≤ pyHour ts ∧ pyHour ts < 14
        · left
          have hr := hs s.pos
          refine ⟨h1', h3.1, h3.2,
            3/10 + (6/10 - 3/10) * s.stream s.pos, ?_, ?_, ?_⟩
          · nlinarith [hr.1]
          · nlinarith [hr.2]
          · simp only [usageAt, if_neg h1, if_neg h2, if_pos h3,
              randomUniform, randomRandom]
        · right
          have hr := hs s.pos
          refine ⟨h1', h8, h18, h3,
            8/10 + (11/10 - 8/10) * s.stream s.pos, ?_, ?_, ?_⟩
          · nlinarith [hr.1]
          · nlinarith [hr.2]
          · simp only [usageAt, if_neg h1, if_neg h2, if_neg h3,
              randomUniform, randomRandom]

/-! ### Closed form of a run under a constant stream -/

theorem usageAt_const {c : ℚ} {s : PyState} (h : s.stream = fun _ => c)
    (base_power : ℚ) (ts : ℕ) :
    (usageAt base_power ts s).1 = usageFor base_power c ts := by
  simp only [usageAt, usageFor, randomUniform, randomRandom, h]
  split_ifs <;> rfl

theorem genRow_const {c : ℚ} {s : PyState} (h : s.stream = fun _ => c)
    (room : String) (base_power : ℚ) (ts : ℕ) :
    (genRow room base_power ts s).1 = rowFor room base_power c ts := by
  have hu2 : (usageAt base_power ts s).2.stream = fun _ => c := by
    rw [usageAt_stream]
    exact h
  simp only [genRow, rowFor, randomUniform, randomRandom,
    usageAt_const h, hu2]

theorem genRoomRows_const {c : ℚ} {s : PyState} (h : s.stream = fun _ => c)
    (room : String) (base_power : ℚ) (tss : List ℕ) :
    (genRoomRows room base_power tss s).1 =
      tss.map (rowFor room base_power c) := by
  induction tss generalizing s with
  | nil => simp [genRoomRows_nil]
  | cons ts rest ih =>
    rw [genRoomRows_cons]
    dsimp only
    rw [genRow_const h, ih (by rw [genRow_stream]; exact h)]
    rfl

theorem genRooms_const {c : ℚ} {s : PyState} (h : s.stream = fun _ => c)
    (rs : List String) :
    (genRooms rs s).1 =
      rs.flatMap (fun room =>
        dates.map (rowFor room (800 + (2500 - 800) * c) c)) := by
  induction rs generalizing s with
  | nil => simp [genRooms_nil]
  | cons room rest ih =>
    rw [genRooms_cons]
    dsimp only
    have hbp : (randomUniform 800 2500 s).1 = 800 + (2500 - 800) * c := by
      simp [randomUniform, randomRandom, h]
    have h2 : (randomUniform 800 2500 s).2.stream = fun _ => c := h
    rw [hbp, genRoomRows_const h2, ih (by rw [genRoomRows_stream]; exact h2)]
    rw [List.flatMap_cons]

theorem generate_data_const (c : ℚ) :
    (generate_data (gConst c)).1 =
      rooms.flatMap (fun room =>
        dates.map (rowFor room (800 + (2500 - 800) * c) c)) := by
  show (genRooms rooms (gConst c).py).1 = _
  exact genRooms_const rfl rooms

theorem validStream_gConst {c : ℚ} (h0 : 0 ≤ c) (h1 : c < 1) :
    validStream (gConst c).py :=
  fun _ => ⟨h0, h1⟩

/-! ### Shape of the generated table -/

theorem genRow_room (room : String) (base_power : ℚ) (ts : ℕ)
    (s : PyState) : (genRow room base_power ts s).1.room = room := rfl

theorem genRow_timestamp (room : String) (base_power : ℚ) (ts : ℕ)
    (s : PyState) : (genRow room base_power ts s).1.timestamp = ts := rfl

theorem genRoomRows_length (room : String) (base_power : ℚ)
    (tss : List ℕ) (s : PyState) :
    (genRoomRows room base_power tss s).1.length = tss.length := by
  induction tss generalizing s with
  | nil => rfl
  | cons ts rest ih =>
    rw [genRoomRows_cons]
    dsimp only
    rw [List.length_cons, ih, List.length_cons]

theorem genRooms_length (rs : List String) (s : PyState) :
    (genRooms rs s).1.length = rs.length * dates.length := by
  induction rs generalizing s with
  | nil =>
    rw [genRooms_nil]
    rw [List.length_nil, List.length_nil, Nat.zero_mul]
  | cons room rest ih =>
    rw [genRooms_cons]
    dsimp only
    rw [List.length_append, genRoomRows_length, ih, List.length_cons,
      Nat.succ_mul]
    exact Nat.add_comm _ _

theorem genRoomRows_map_timestamp (room : String) (base_power : ℚ)
    (tss : List ℕ) (s : PyState) :
    (genRoomRows room base_power tss s).1.map (fun r => r.timestamp) = tss := by
  induction tss generalizing s with
  | nil => rfl
  | cons ts rest ih =>
    rw [genRoomRows_cons]
    dsimp only
    rw [List.map_cons, ih, genRow_timestamp]

theorem genRoomRows_room_eq {row : Sample} {room : String} {base_power : ℚ}
    {tss : List ℕ} {s : PyState}
    (h : row ∈ (genRoomRows room base_power tss s).1) : row.room = room := by
  obtain ⟨ts, s', _, _, he⟩ := mem_genRoomRows h
  rw [he, genRow_room]

theorem genRooms_row_room {row : Sample} {rs : List String} {s : PyState}
    (h : row ∈ (genRooms rs s).1) : row.room ∈ rs := by
  obtain ⟨room, bp, ts, s', hm, _, _, _, he⟩ := mem_genRooms h
  rw [he, genRow_room]
  exact hm

theorem genRoomRows_filter_eq_self (room : String) (base_power : ℚ)
    (tss : List ℕ) (s : PyState) :
    (genRoomRows room base_power tss s).1.filter
      (fun row => row.room == room) = (genRoomRows room base_power tss s).1 := by
  apply List.filter_eq_self.mpr
  intro row hrow
  simp [genRoomRows_room_eq hrow]

theorem genRoomRows_filter_eq_nil {room r : String} (hne : room ≠ r)
    (base_power : ℚ) (tss : List ℕ) (s : PyState) :
    (genRoomRows room base_power tss s).1.filter
      (fun row => row.room == r) = [] := by
  apply List.filter_eq_nil_iff.mpr
  intro row hrow
  simp [genRoomRows_room_eq hrow, hne]

theorem genRooms_filter_eq_nil {rs : List String} {r : String} (h : r ∉ rs)
    (s : PyState) :
    (genRooms rs s).1.filter (fun row => row.room == r) = [] := by
  apply List.filter_eq_nil_iff.mpr
  intro row hrow
  have hin := genRooms_row_room hrow
  simp only [beq_iff_eq]
  intro heq
  exact h (heq ▸ hin)

theorem genRooms_filter_room (rs : List String) (s : PyState) (r : String)
    (hmem : r ∈ rs) (hnd : rs.Nodup) :
    ((genRooms rs s).1.filter (fun row => row.room == r)).map
      (fun row => row.timestamp) = dates := by
  induction rs generalizing s with
  | nil => cases hmem
  | cons room rest ih =>
    rw [genRooms_cons]
    dsimp only
    rw [List.filter_append, List.map_append]
    rcases List.mem_cons.mp hmem with rfl | hr
    · rw [genRoomRows_filter_eq_self,
        genRooms_filter_eq_nil (List.nodup_cons.mp hnd).1,
        genRoomRows_map_timestamp, List.map_nil, List.append_nil]
    · have hne : room ≠ r := fun he => (List.nodup_cons.mp hnd).1 (he ▸ hr)
      rw [genRoomRows_filter_eq_nil hne, List.map_nil, List.nil_append,
        ih _ hr (List.nodup_cons.mp hnd).2]

theorem rooms_nodup : rooms.Nodup := by decide

theorem rooms_length : rooms.length = 80 := by decide

theorem dates_length : dates.length = 21600 := by
  simp [dates]

theorem dates_nodup : dates.Nodup := by
  simp [dates]
  exact List.nodup_range 21600

theorem generate_data_timestamp_lt {row : Sample} {g : GlobalRng}
    (h : row ∈ (generate_data g).1) : row.timestamp < 21600 := by
  obtain ⟨room, bp, ts, s', _, hd, _, _, he⟩ := mem_generate_data h
  rw [he, genRow_timestamp]
  exact List.mem_range.mp hd

/-! ### Concrete evaluation helpers -/

theorem pyRound_eq_of_lt_half {x : ℚ} {d : ℕ} {n : ℤ}
    (h1 : (n:ℚ) ≤ x * 10 ^ d) (h2 : x * 10 ^ d < n + 1/2) :
    pyRound x d = n / 10 ^ d := by
  unfold pyRound
  rw [roundHalfEven_of_lt_half h1 h2]

theorem pyRound_eq_of_gt_half {x : ℚ} {d : ℕ} {n : ℤ}
    (h1 : (n:ℚ) + 1/2 < x * 10 ^ d) (h2 : x * 10 ^ d < n + 1) :
    pyRound x d = ((n:ℚ) + 1) / 10 ^ d := by
  unfold pyRound
  rw [roundHalfEven_of_gt_half h1 h2]
  norm_cast

theorem mem_rooms_FUB101 : "FUB-101" ∈ rooms := by decide

theorem rowFor_mem_generate_data_const {room : String} {ts : ℕ}
    (c : ℚ) (hroom : room ∈ rooms) (hts : ts ∈ dates) :
    rowFor room (800 + (2500 - 800) * c) c ts ∈
      (generate_data (gConst c)).1 := by
  rw [generate_data_const]
  exact List.mem_flatMap.mpr ⟨room, hroom, List.mem_map.mpr ⟨ts, hts, rfl⟩⟩

theorem generate_data_energy_nonneg {g : GlobalRng} (hg : validStream g.py) :
    ∀ row ∈ (generate_data g).1, 0 ≤ row.energy_kwh := by
  intro row hrow
  obtain ⟨room, bp, ts, s', _, _, hstream, hbp, he⟩ := mem_generate_data hrow
  have hs' : validStream s' := validStream_of_stream_eq hstream hg
  obtain ⟨p, v, _, _, heq, hpol⟩ := genRow_spec room bp ts s' hs'
  have hbp' := hbp hg
  have hp : 0 ≤ p := by
    rcases hpol with ⟨_, h0 | ⟨u, h1, _, hpu⟩⟩ | ⟨_, _, h0⟩ |
        ⟨_, _, _, u, h1, _, hpu⟩ | ⟨_, _, _, _, u, h1, _, hpu⟩
    · rw [h0]
    · rw [hpu]; nlinarith [hbp'.1]
    · rw [h0]
    · rw [hpu]; nlinarith [hbp'.1]
    · rw [hpu]; nlinarith [hbp'.1]
  have hen : row.energy_kwh = p / 1000 / 60 := by rw [he, heq]
  rw [hen]
  positivity

/-! ### The claims -/

/-- C9: the generation routine takes no horizon or seed parameter (its only
argument in this embedding is the ambient global random state the Python
`random` module holds); whatever that state, it emits exactly
80 rooms × 21600 minutes = 1728000 rows over the hardcoded horizon
2025-11-01 00:00 .. 2025-11-15 23:59, and for every room of the layout the
rows of that room carry exactly the horizon's minutes, in order, with no
gap and no duplicate. -/
theorem claim_C9_fixed_horizon_complete_grid (g : GlobalRng) :
    (generate_data g).1.length = 1728000 ∧
      rooms.length = 80 ∧ dates.length = 21600 ∧ dates.Nodup ∧
      ∀ r, r ∈ rooms →
        ((generate_data g).1.filter (fun row => row.room == r)).map
          (fun row => row.timestamp) = dates := by
  refine ⟨?_, rooms_length, dates_length, dates_nodup, ?_⟩
  · show (genRooms rooms g.py).1.length = 1728000
    rw [genRooms_length, rooms_length, dates_length]
  · intro r hr
    show ((genRooms rooms g.py).1.filter _).map _ = dates
    exact genRooms_filter_room rooms g.py r hr rooms_nodup

/-- C6: a Room Detail date range that matches no sample (here: any range
starting at day 15 or later, i.e. after the horizon) gives an empty,
well-typed filtered frame and an empty hourly resample — but the page's
`latest = filtered.sort_values('timestamp').iloc[-1]` (source line 152)
finds no row, which in Python raises `IndexError` (modelled by `none`), so
the page errors instead of rendering the valid empty state. -/
theorem claim_C6_empty_range_query (g : GlobalRng) (room : String)
    (sd ed : ℕ) (h : 15 ≤ sd) :
    roomDetailFiltered (withRollups (generate_data g).1) room sd ed = [] ∧
      resampleHourlyEnergy
        (roomDetailFiltered (withRollups (generate_data g).1) room sd ed)
        = [] ∧
      roomDetailLatest (withRollups (generate_data g).1) room sd ed
        = none := by
  have hempty :
      roomDetailFiltered (withRollups (generate_data g).1) room sd ed = [] := by
    unfold roomDetailFiltered
    apply List.filter_eq_nil_iff.mpr
    intro r hr
    have hr2 := (List.mem_filter.mp hr).1
    obtain ⟨s0, hs0, rfl⟩ := List.mem_map.mp hr2
    have hlt : s0.timestamp < 21600 := generate_data_timestamp_lt hs0
    have hnot : ¬ (sd ≤ pyDate s0.timestamp) := by
      unfold pyDate
      omega
    simp [hnot]
  refine ⟨hempty, ?_, ?_⟩
  · rw [hempty]
    rfl
  · unfold roomDetailLatest
    rw [hempty, List.mergeSort_nil]
    rfl

/-- C6 witness: the empty-range behaviour at a concrete input — room
"FUB-101", range days 30..31, any fixed global state. -/
theorem claim_C6_witness :
    roomDetailFiltered (withRollups (generate_data (gConst 0)).1)
        "FUB-101" 30 31 = [] ∧
      resampleHourlyEnergy
        (roomDetailFiltered (withRollups (generate_data (gConst 0)).1)
          "FUB-101" 30 31) = [] ∧
      roomDetailLatest (withRollups (generate_data (gConst 0)).1)
        "FUB-101" 30 31 = none :=
  claim_C6_empty_range_query (gConst 0) "FUB-101" 30 31 (by norm_num)

/-- C4: the floor-extraction round-trip fails.  For floor 1, room 1 the
naming convention produces "FUB-101" (a member of the generated room
list), but source line 54's `room[4:7].replace('0','')` extracts "11" —
not "1" — and likewise "51" for FUB-501 (despite the inline comment
`# e.g., Floor 5`) and "1" for the floor-10 room FUB-1001. -/
theorem claim_C4_floor_roundtrip_fails :
    roomId 1 1 = "FUB-101" ∧ "FUB-101" ∈ rooms ∧
      floorField (roomId 1 1) = "11" ∧ toString (1:ℕ) = "1" ∧
      floorField (roomId 5 1) = "51" ∧ toString (5:ℕ) = "5" ∧
      floorField (roomId 10 1) = "1" ∧ toString (10:ℕ) = "10" := by
  exact ⟨by decide, mem_rooms_FUB101, by decide, by decide, by decide,
    by decide, by decide, by decide⟩

theorem mem_dates {ts : ℕ} (h : ts < 21600) : ts ∈ dates :=
  List.mem_range.mpr h

/-- C1: the seed the code fixes does not make generation reproducible.
`generate_data` always calls `np.random.seed(42)`, but every draw comes
from the `random` module, whose ambient state the seed call leaves
untouched; two invocations whose global states agree on the (seeded) NumPy
component but found the `random` module in different states give different
tables — their first rows already differ in voltage (220.0 V vs 225.0 V).
This is exactly what happens across two invocations in one process, since
the first invocation advances the `random` state it leaves behind. -/
theorem claim_C1_seed_does_not_determine_output :
    (gConst 0).np = (gConst (1/2)).np ∧
      (generate_data (gConst 0)).1 ≠ (generate_data (gConst (1/2))).1 := by
  refine ⟨rfl, ?_⟩
  intro heq
  have hA : rowFor "FUB-101" (800 + (2500 - 800) * 0) 0 0 ∈
      (generate_data (gConst 0)).1 :=
    rowFor_mem_generate_data_const 0 mem_rooms_FUB101 (mem_dates (by norm_num))
  rw [heq, generate_data_const] at hA
  obtain ⟨room, hroom, hmem⟩ := List.mem_flatMap.mp hA
  obtain ⟨ts, hts, hrow⟩ := List.mem_map.mp hmem
  have hv := congrArg Sample.voltage hrow
  have hL : (rowFor room (800 + (2500 - 800) * (1/2)) (1/2) ts).voltage
      = 225 := by
    show pyRound (220 + (230 - 220) * (1/2 : ℚ)) 2 = 225
    rw [pyRound_eq_of_lt_half (n := 22500) (by norm_num) (by norm_num)]
    norm_num
  have hR : (rowFor "FUB-101" (800 + (2500 - 800) * 0) 0 0).voltage = 220 := by
    show pyRound (220 + (230 - 220) * (0:ℚ)) 2 = 220
    rw [pyRound_eq_of_lt_half (n := 22000) (by norm_num) (by norm_num)]
    norm_num
  rw [hL, hR] at hv
  norm_num at hv

/-- C2 (amended): on weekend timestamps a generated row's power is 0 when
the per-minute `random.random()` draw is below 0.9, and otherwise is the
rounded value of `base_power * u` for a draw `u` uniform in `[0.1, 0.4)` —
the code's 10% partial-idle exception, so weekend power is not always
exactly 0. -/
theorem claim_C2_amended_weekend_policy (room : String) (base_power : ℚ)
    (s : PyState) (tss : List ℕ) (hs : validStream s) :
    ∀ row ∈ (genRoomRows room base_power tss s).1,
      5 ≤ pyWeekday row.timestamp →
        row.power = 0 ∨
          ∃ u, 1/10 ≤ u ∧ u < 4/10 ∧
            row.power = pyRound (base_power * u) 1 := by
  intro row hrow hwk
  obtain ⟨ts, s', hts, hstream, he⟩ := mem_genRoomRows hrow
  have hs' : validStream s' := validStream_of_stream_eq hstream hs
  obtain ⟨p, v, _, _, heq, hpol⟩ := genRow_spec room base_power ts s' hs'
  have htseq : row.timestamp = ts := by rw [he]; rfl
  rw [htseq] at hwk
  have hpower : row.power = pyRound p 1 := by rw [he, heq]
  rcases hpol with ⟨_, h0 | ⟨u, h1, h2, hpu⟩⟩ | ⟨hlt, _, _⟩ |
      ⟨hlt, _⟩ | ⟨hlt, _⟩
  · left
    rw [hpower, h0, pyRound_zero]
  · right
    exact ⟨u, h1, h2, by rw [hpower, hpu]⟩
  all_goals omega

/-- C2 counterexample: a run of the generator (every `random.random()`
draw returning 0.95, a well-formed stream) whose very first row falls on
the weekend day 2025-11-01 and carries strictly positive power
(929.8 W after rounding: `base_power = 2415` and partial draw 0.385). -/
theorem claim_C2_counterexample :
    validStream (gConst (19/20)).py ∧
      ∃ row ∈ (generate_data (gConst (19/20))).1,
        5 ≤ pyWeekday row.timestamp ∧ 0 < row.power := by
  refine ⟨validStream_gConst (by norm_num) (by norm_num), ?_⟩
  refine ⟨rowFor "FUB-101" (800 + (2500 - 800) * (19/20)) (19/20) 0,
    rowFor_mem_generate_data_const (19/20) mem_rooms_FUB101
      (mem_dates (by norm_num)), ?_, ?_⟩
  · show 5 ≤ pyWeekday 0
    decide
  · show 0 < pyRound
      (usageFor (800 + (2500 - 800) * (19/20)) (19/20) 0) 1
    have husage : usageFor (800 + (2500 - 800) * (19/20)) (19/20) 0
        = 185955/200 := by
      unfold usageFor
      rw [if_pos (by decide), if_neg (by norm_num)]
      norm_num
    rw [husage]
    have habs := abs_pyRound_sub_le (185955/200 : ℚ) 1
    rw [abs_le] at habs
    have h1 := habs.1
    norm_num at h1 ⊢
    linarith

/-- C2 witness for the amended statement: the first weekend minute of a
run whose draws all return 0 (power 0, the 90% branch). -/
theorem claim_C2_witness :
    (rowFor "FUB-101" 800 0 0).power = 0 ∨
      ∃ u, 1/10 ≤ u ∧ u < 4/10 ∧
        (rowFor "FUB-101" 800 0 0).power = pyRound (800 * u) 1 :=
  claim_C2_amended_weekend_policy "FUB-101" 800 (gConst 0).py [0]
    (validStream_gConst (by norm_num) (by norm_num))
    (rowFor "FUB-101" 800 0 0)
    (by rw [genRoomRows_const rfl]; exact List.mem_singleton.mpr rfl)
    (by decide)

/-- C5 (amended): on weekday occupied non-lunch hours ([8,12) ∪ [14,18))
the generated power is the rounding of `base_power * u` for a draw `u`
uniform in `[0.8, 1.1)` — the code's range, not the claimed
`[0.85, 1.15]` — so the unrounded power lies in
`[0.8 x base_power, 1.1 x base_power]`. -/
theorem claim_C5_amended_peak_range (room : String) (base_power : ℚ)
    (s : PyState) (tss : List ℕ) (hs : validStream s)
    (hbp : 0 ≤ base_power) :
    ∀ row ∈ (genRoomRows room base_power tss s).1,
      pyWeekday row.timestamp < 5 →
      (8 ≤ pyHour row.timestamp ∧ pyHour row.timestamp < 12) ∨
        (14 ≤ pyHour row.timestamp ∧ pyHour row.timestamp < 18) →
      ∃ p, 8/10 * base_power ≤ p ∧ p ≤ 11/10 * base_power ∧
        row.power = pyRound p 1 := by
  intro row hrow hwk hhr
  obtain ⟨ts, s', hts, hstream, he⟩ := mem_genRoomRows hrow
  have hs' : validStream s' := validStream_of_stream_eq hstream hs
  obtain ⟨p, v, _, _, heq, hpol⟩ := genRow_spec room base_power ts s' hs'
  have htseq : row.timestamp = ts := by rw [he]; rfl
  rw [htseq] at hwk hhr
  have hpower : row.power = pyRound p 1 := by rw [he, heq]
  rcases hpol with ⟨hw, _⟩ | ⟨_, hoff, _⟩ | ⟨_, h12, h14, _⟩ |
      ⟨_, _, _, _, u, h1, h2, hpu⟩
  · omega
  · rcases hhr with ⟨ha, hb⟩ | ⟨ha, hb⟩ <;> omega
  · rcases hhr with ⟨ha, hb⟩ | ⟨ha, hb⟩ <;> omega
  · refine ⟨p, ?_, ?_, hpower⟩
    · rw [hpu]
      nlinarith
    · rw [hpu]
      nlinarith

/-- C5 counterexample: in a run whose draws all return 0 (a well-formed
stream), the room FUB-101 has `base_power = 800` and its Monday
2025-11-03 08:00 row stores power 640 W = 0.8 x 800 — below the claimed
lower bound 0.85 x 800 = 680 by more than any rounding slack, and no
unrounded power in `[680, 920]` rounds to it. -/
theorem claim_C5_counterexample :
    validStream (gConst 0).py ∧
      ∃ row ∈ (generate_data (gConst 0)).1,
        pyWeekday row.timestamp < 5 ∧ 8 ≤ pyHour row.timestamp ∧
        pyHour row.timestamp < 12 ∧ row.power = 640 ∧
        (640 : ℚ) + 1/20 < 17/20 * 800 ∧
        ¬ ∃ p, 17/20 * 800 ≤ p ∧ p ≤ 23/20 * 800 ∧
          row.power = pyRound p 1 := by
  have husage : usageFor (800 + (2500 - 800) * 0) 0 3360 = 640 := by
    unfold usageFor
    rw [if_neg (by decide), if_neg (by decide), if_neg (by decide)]
    norm_num
  have hpw : (rowFor "FUB-101" (800 + (2500 - 800) * 0) 0 3360).power
      = 640 := by
    show pyRound (usageFor (800 + (2500 - 800) * 0) 0 3360) 1 = 640
    rw [husage, pyRound_eq_of_lt_half (n := 6400) (by norm_num) (by norm_num)]
    norm_num
  refine ⟨validStream_gConst (by norm_num) (by norm_num), ?_⟩
  refine ⟨rowFor "FUB-101" (800 + (2500 - 800) * 0) 0 3360,
    rowFor_mem_generate_data_const 0 mem_rooms_FUB101
      (mem_dates (by norm_num)), ?_, ?_, ?_, hpw, by norm_num, ?_⟩
  · show pyWeekday 3360 < 5
    decide
  · show 8 ≤ pyHour 3360
    decide
  · show pyHour 3360 < 12
    decide
  · rintro ⟨p, hp1, hp2, hpe⟩
    rw [hpw] at hpe
    have habs := abs_pyRound_sub_le p 1
    rw [abs_le] at habs
    have h1 := habs.1
    norm_num at h1
    linarith

/-- C5 witness for the amended statement: the Monday 08:00 row of a
single-room run with `base_power = 800` and all draws 0. -/
theorem claim_C5_witness :
    ∃ p, 8/10 * 800 ≤ p ∧ p ≤ 11/10 * 800 ∧
      (rowFor "FUB-101" 800 0 3360).power = pyRound p 1 :=
  claim_C5_amended_peak_range "FUB-101" 800 (gConst 0).py [3360]
    (validStream_gConst (by norm_num) (by norm_num)) (by norm_num)
    (rowFor "FUB-101" 800 0 3360)
    (by rw [genRoomRows_const rfl]; exact List.mem_singleton.mpr rfl)
    (by decide) (Or.inl ⟨by decide, by decide⟩)

/-- C7: on weekdays, a lunch-hour row ([12,14)) stores the rounding of a
power in `[0.3 x base_power, 0.6 x base_power]`, and an off-hours row
(hour outside [8,18)) stores exactly 0. -/
theorem claim_C7_lunch_and_offhours (room : String) (base_power : ℚ)
    (s : PyState) (tss : List ℕ) (hs : validStream s)
    (hbp : 0 ≤ base_power) :
    ∀ row ∈ (genRoomRows room base_power tss s).1,
      pyWeekday row.timestamp < 5 →
        ((12 ≤ pyHour row.timestamp ∧ pyHour row.timestamp < 14 →
            ∃ p, 3/10 * base_power ≤ p ∧ p ≤ 6/10 * base_power ∧
              row.power = pyRound p 1) ∧
          ((pyHour row.timestamp < 8 ∨ 18 ≤ pyHour row.timestamp) →
            row.power = 0)) := by
  intro row hrow hwk
  obtain ⟨ts, s', hts, hstream, he⟩ := mem_genRoomRows hrow
  have hs' : validStream s' := validStream_of_stream_eq hstream hs
  obtain ⟨p, v, _, _, heq, hpol⟩ := genRow_spec room base_power ts s' hs'
  have htseq : row.timestamp = ts := by rw [he]; rfl
  rw [htseq] at hwk ⊢
  have hpower : row.power = pyRound p 1 := by rw [he, heq]
  constructor
  · intro hlunch
    rcases hpol with ⟨hw, _⟩ | ⟨_, hoff, _⟩ |
        ⟨_, _, _, u, h1, h2, hpu⟩ | ⟨_, _, _, hnl, _⟩
    · omega
    · rcases hoff with ha | ha <;> omega
    · refine ⟨p, ?_, ?_, hpower⟩
      · rw [hpu]
        nlinarith
      · rw [hpu]
        nlinarith
    · exact absurd hlunch hnl
  · intro hoffh
    rcases hpol with ⟨hw, _⟩ | ⟨_, _, h0⟩ | ⟨_, h12, h14, _⟩ |
        ⟨_, h8, h18, _, _⟩
    · omega
    · rw [hpower, h0, pyRound_zero]
    · rcases hoffh with ha | ha <;> omega
    · rcases hoffh with ha | ha <;> omega

/-- C7 witness: the Monday 12:00 lunch row of a single-room run with
`base_power = 800` and all draws 0. -/
theorem claim_C7_witness :
    ∃ p, 3/10 * 800 ≤ p ∧ p ≤ 6/10 * 800 ∧
      (rowFor "FUB-101" 800 0 3600).power = pyRound p 1 :=
  (claim_C7_lunch_and_offhours "FUB-101" 800 (gConst 0).py [3600]
    (validStream_gConst (by norm_num) (by norm_num)) (by norm_num)
    (rowFor "FUB-101" 800 0 3600)
    (by rw [genRoomRows_const rfl]; exact List.mem_singleton.mpr rfl)
    (by decide)).1 ⟨by decide, by decide⟩

/-- C8: every generated row derives from an unrounded power `p ≥ 0` and
voltage `v ∈ [220, 230)`: the stored power, voltage and current are their
roundings (current guarded: `p / v` only when `p > 0`, else 0), energy is
`p / 1000 / 60`, and status is ON exactly when `p > 100` — so the claimed
relations hold up to the declared rounding of the stored fields. -/
theorem claim_C8_derived_fields (g : GlobalRng) (hg : validStream g.py) :
    ∀ row ∈ (generate_data g).1,
      ∃ p v, 0 ≤ p ∧ 220 ≤ v ∧ v < 230 ∧
        row.power = pyRound p 1 ∧
        row.voltage = pyRound v 2 ∧
        row.current = pyRound (if 0 < p then p / v else 0) 3 ∧
        row.energy_kwh = p / 1000 / 60 ∧
        row.status = (if 100 < p then "ON" else "OFF") := by
  intro row hrow
  obtain ⟨room, bp, ts, s', _, _, hstream, hbp, he⟩ := mem_generate_data hrow
  have hs' : validStream s' := validStream_of_stream_eq hstream hg
  obtain ⟨p, v, hv1, hv2, heq, hpol⟩ := genRow_spec room bp ts s' hs'
  have hbp' := hbp hg
  have hp : 0 ≤ p := by
    rcases hpol with ⟨_, h0 | ⟨u, h1, _, hpu⟩⟩ | ⟨_, _, h0⟩ |
        ⟨_, _, _, u, h1, _, hpu⟩ | ⟨_, _, _, _, u, h1, _, hpu⟩
    · exact le_of_eq h0.symm
    · rw [hpu]; nlinarith [hbp'.1]
    · exact le_of_eq h0.symm
    · rw [hpu]; nlinarith [hbp'.1]
    · rw [hpu]; nlinarith [hbp'.1]
  exact ⟨p, v, hp, hv1, hv2, by rw [he, heq], by rw [he, heq],
    by rw [he, heq], by rw [he, heq], by rw [he, heq]⟩

/-- C8 witness: the first row of a run with all draws 0. -/
theorem claim_C8_witness :
    ∃ p v, 0 ≤ p ∧ 220 ≤ v ∧ v < 230 ∧
      (rowFor "FUB-101" (800 + (2500 - 800) * 0) 0 0).power = pyRound p 1 ∧
      (rowFor "FUB-101" (800 + (2500 - 800) * 0) 0 0).voltage
        = pyRound v 2 ∧
      (rowFor "FUB-101" (800 + (2500 - 800) * 0) 0 0).current
        = pyRound (if 0 < p then p / v else 0) 3 ∧
      (rowFor "FUB-101" (800 + (2500 - 800) * 0) 0 0).energy_kwh
        = p / 1000 / 60 ∧
      (rowFor "FUB-101" (800 + (2500 - 800) * 0) 0 0).status
        = (if 100 < p then "ON" else "OFF") :=
  claim_C8_derived_fields (gConst 0)
    (validStream_gConst (by norm_num) (by norm_num))
    (rowFor "FUB-101" (800 + (2500 - 800) * 0) 0 0)
    (rowFor_mem_generate_data_const 0 mem_rooms_FUB101
      (mem_dates (by norm_num)))

/-- C10: stored voltage, current and power are rounded to 2, 3 and 1
decimals while energy and status come from the unrounded power `p`: energy
equals `p / 1000 / 60` exactly, the stored power differs from `p` by at
most 0.05 W, and hence energy differs from
`stored power / 1000 / 60` by at most `0.05 / 1000 / 60`. -/
theorem claim_C10_rounding_discipline (g : GlobalRng)
    (hg : validStream g.py) :
    ∀ row ∈ (generate_data g).1,
      ∃ p v, row.voltage = pyRound v 2 ∧
        row.current = pyRound (if 0 < p then p / v else 0) 3 ∧
        row.power = pyRound p 1 ∧
        row.energy_kwh = p / 1000 / 60 ∧
        row.status = (if 100 < p then "ON" else "OFF") ∧
        |row.power - p| ≤ 1/20 ∧
        |row.energy_kwh - row.power / 1000 / 60| ≤ 1/20/1000/60 := by
  intro row hrow
  obtain ⟨room, bp, ts, s', _, _, hstream, hbp, he⟩ := mem_generate_data hrow
  have hs' : validStream s' := validStream_of_stream_eq hstream hg
  obtain ⟨p, v, hv1, hv2, heq, hpol⟩ := genRow_spec room bp ts s' hs'
  have hpw : row.power = pyRound p 1 := by rw [he, heq]
  have hen : row.energy_kwh = p / 1000 / 60 := by rw [he, heq]
  have habs := abs_pyRound_sub_le p 1
  norm_num at habs
  refine ⟨p, v, by rw [he, heq], by rw [he, heq], hpw, hen,
    by rw [he, heq], ?_, ?_⟩
  · rw [hpw]
    exact habs
  · have hdiff : row.energy_kwh - row.power / 1000 / 60
        = (p - pyRound p 1) / 60000 := by
      rw [hen, hpw]
      ring
    rw [hdiff, abs_div, show |(60000:ℚ)| = 60000 from by norm_num,
      show (1:ℚ)/20/1000/60 = (1/20)/60000 from by norm_num]
    gcongr
    rw [abs_sub_comm]
    exact habs

/-- C10 witness: the first row of a run with all draws 0. -/
theorem claim_C10_witness :
    ∃ p v,
      (rowFor "FUB-101" (800 + (2500 - 800) * 0) 0 0).voltage
        = pyRound v 2 ∧
      (rowFor "FUB-101" (800 + (2500 - 800) * 0) 0 0).current
        = pyRound (if 0 < p then p / v else 0) 3 ∧
      (rowFor "FUB-101" (800 + (2500 - 800) * 0) 0 0).power
        = pyRound p 1 ∧
      (rowFor "FUB-101" (800 + (2500 - 800) * 0) 0 0).energy_kwh
        = p / 1000 / 60 ∧
      (rowFor "FUB-101" (800 + (2500 - 800) * 0) 0 0).status
        = (if 100 < p then "ON" else "OFF") ∧
      |(rowFor "FUB-101" (800 + (2500 - 800) * 0) 0 0).power - p|
        ≤ 1/20 ∧
      |(rowFor "FUB-101" (800 + (2500 - 800) * 0) 0 0).energy_kwh -
          (rowFor "FUB-101" (800 + (2500 - 800) * 0) 0 0).power / 1000 / 60|
        ≤ 1/20/1000/60 :=
  claim_C10_rounding_discipline (gConst 0)
    (validStream_gConst (by norm_num) (by norm_num))
    (rowFor "FUB-101" (800 + (2500 - 800) * 0) 0 0)
    (rowFor_mem_generate_data_const 0 mem_rooms_FUB101
      (mem_dates (by norm_num)))

/-- C3 (amended): for every row of the rolled-up frame, `energy_daily` is
the room-date group sum of `energy_kwh` and `cost_daily` is that sum times
the tariff 8.5 (the broadcast daily totals) — but `co2_g` is the row's OWN
per-minute `energy_kwh * 720`, not the broadcast daily total times the
emission factor. -/
theorem claim_C3_amended_rollup_columns (g : GlobalRng) :
    ∀ row ∈ withRollups (generate_data g).1, ∃ s,
      row.sample = s ∧
      row.date = pyDate s.timestamp ∧
      row.energy_daily = groupEnergySum (generate_data g).1
        s.room (pyDate s.timestamp) ∧
      row.cost_daily = row.energy_daily * (85/10) ∧
      row.co2_g = s.energy_kwh * 720 := by
  intro row hrow
  obtain ⟨s0, hs0, rfl⟩ := List.mem_map.mp hrow
  refine ⟨s0, ?_, ?_, ?_, ?_, ?_⟩
  all_goals dsimp only

/-- C3 witness: the columns of the first row of a run with all draws 0. -/
theorem claim_C3_witness :
    ∃ row ∈ withRollups (generate_data (gConst 0)).1, ∃ s,
      row.sample = s ∧
      row.date = pyDate s.timestamp ∧
      row.energy_daily = groupEnergySum (generate_data (gConst 0)).1
        s.room (pyDate s.timestamp) ∧
      row.cost_daily = row.energy_daily * (85/10) ∧
      row.co2_g = s.energy_kwh * 720 := by
  have hmem : rowFor "FUB-101" (800 + (2500 - 800) * 0) 0 0 ∈
      (generate_data (gConst 0)).1 :=
    rowFor_mem_generate_data_const 0 mem_rooms_FUB101 (mem_dates (by norm_num))
  exact ⟨_, List.mem_map_of_mem _ hmem,
    claim_C3_amended_rollup_columns (gConst 0) _
      (List.mem_map_of_mem _ hmem)⟩

theorem withRollups_fields (df : List Sample) (r : Sample) (hr : r ∈ df) :
    ∃ row ∈ withRollups df,
      row.sample = r ∧ row.date = pyDate r.timestamp ∧
      row.energy_daily = groupEnergySum df r.room (pyDate r.timestamp) ∧
      row.cost_daily
        = groupEnergySum df r.room (pyDate r.timestamp) * (85/10) ∧
      row.co2_g = r.energy_kwh * 720 := by
  refine ⟨_, List.mem_map_of_mem _ hr, ?_, ?_, ?_, ?_, ?_⟩ <;> rfl

/-- C3 counterexample: in the run with all draws 1/2, the FUB-101 row at
Monday 2025-11-03 00:00 has `co2_g = 0` (its own minute is off) while its
`energy_daily` is positive (the 08:00 minute of the same room-date draws
1567.5 W), so `co2_g` is NOT the broadcast room-date total times 720. -/
theorem claim_C3_counterexample :
    ∃ row ∈ withRollups (generate_data (gConst (1/2))).1,
      row.co2_g = 0 ∧ 0 < row.energy_daily ∧
      row.co2_g ≠ row.energy_daily * 720 := by
  have hvalid : validStream (gConst (1/2)).py :=
    validStream_gConst (by norm_num) (by norm_num)
  have hmem0 : rowFor "FUB-101" (800 + (2500 - 800) * (1/2)) (1/2) 2880 ∈
      (generate_data (gConst (1/2))).1 :=
    rowFor_mem_generate_data_const (1/2) mem_rooms_FUB101
      (mem_dates (by norm_num))
  have hmem3360 : rowFor "FUB-101" (800 + (2500 - 800) * (1/2)) (1/2) 3360 ∈
      (generate_data (gConst (1/2))).1 :=
    rowFor_mem_generate_data_const (1/2) mem_rooms_FUB101
      (mem_dates (by norm_num))
  have husage0 : usageFor (800 + (2500 - 800) * (1/2)) (1/2) 2880 = 0 := by
    unfold usageFor
    rw [if_neg (by decide), if_pos (by decide)]
  have husage3360 : usageFor (800 + (2500 - 800) * (1/2)) (1/2) 3360
      = 3135/2 := by
    unfold usageFor
    rw [if_neg (by decide), if_neg (by decide), if_neg (by decide)]
    norm_num
  have hco2 : (rowFor "FUB-101" (800 + (2500 - 800) * (1/2)) (1/2)
      2880).energy_kwh * 720 = 0 := by
    show usageFor (800 + (2500 - 800) * (1/2)) (1/2) 2880 / 1000 / 60 * 720
      = 0
    rw [husage0]
    norm_num
  have hpos : 0 < groupEnergySum (generate_data (gConst (1/2))).1
      "FUB-101" (pyDate 2880) := by
    have he1 : (rowFor "FUB-101" (800 + (2500 - 800) * (1/2)) (1/2)
        3360).energy_kwh ∈
        (((generate_data (gConst (1/2))).1.filter
          (fun r => r.room == "FUB-101" && pyDate r.timestamp ==
            pyDate 2880)).map (fun r => r.energy_kwh)) := by
      apply List.mem_map_of_mem
      apply List.mem_filter.mpr
      refine ⟨hmem3360, ?_⟩
      show ((rowFor "FUB-101" (800 + (2500 - 800) * (1/2)) (1/2)
        3360).room == "FUB-101" && pyDate (rowFor "FUB-101"
        (800 + (2500 - 800) * (1/2)) (1/2) 3360).timestamp ==
        pyDate 2880) = true
      decide
    have hnn : ∀ x ∈ (((generate_data (gConst (1/2))).1.filter
        (fun r => r.room == "FUB-101" && pyDate r.timestamp ==
          pyDate 2880)).map (fun r => r.energy_kwh)), 0 ≤ x := by
      intro x hx
      obtain ⟨r, hr, rfl⟩ := List.mem_map.mp hx
      exact generate_data_energy_nonneg hvalid r (List.mem_of_mem_filter hr)
    have hle := List.single_le_sum hnn _ he1
    have he1v : (rowFor "FUB-101" (800 + (2500 - 800) * (1/2)) (1/2)
        3360).energy_kwh = 3135/2/1000/60 := by
      show usageFor (800 + (2500 - 800) * (1/2)) (1/2) 3360 / 1000 / 60
        = 3135/2/1000/60
      rw [husage3360]
    rw [he1v] at hle
    unfold groupEnergySum
    calc (0:ℚ) < 3135/2/1000/60 := by norm_num
    _ ≤ _ := hle
  obtain ⟨row, hrowmem, hsam, hdate, hdaily, hcost, hc⟩ :=
    withRollups_fields (generate_data (gConst (1/2))).1 _ hmem0
  refine ⟨row, hrowmem, ?_, ?_, ?_⟩
  · rw [hc, hco2]
  · rw [hdaily]
    exact hpos
  · rw [hc, hdaily, hco2]
    exact (ne_of_gt (mul_pos hpos (by norm_num))).symm

end BEMS
